import Mathlib

/-!
Verification of the reward-ledger / cooldown core of the CCC miner bot.

The repository contains two independent variants of the core:

* `faucet.py` — the *last-timestamp* model: table `ccc_mining` keyed by
  `telegram_user_id` holding `(last_mine_timestamp REAL, ccc_balance REAL)`,
  with operations `get_mining_status` and `process_mining`, plus the original
  faucet flow `send_hbar_to_account` over table `faucet_claims`
  `(telegram_user_id PRIMARY KEY, hedera_account_id, last_claim_timestamp)`.

* `app.py` — the *session* model: table `users`
  `(id PRIMARY KEY, hedera_account_id UNIQUE, ccc_tokens REAL)` and table
  `mining_sessions (user_id, start_time)` (no uniqueness constraint), with
  operations `get_active_mining_session`, `start_mining_session`,
  `complete_mining_session` and `update_hedera_account`.

Timestamps and balances are SQLite `REAL` (Python floats); they are embedded
as `ℚ`, which models real-valued arithmetic exactly.  The single place where
the float *representation* itself matters (cumulative balance drift) is
modelled separately by `floatAddOne` below.  `time.time()` is replaced by an
explicit `now : ℚ` argument threaded through each operation
(`process_mining` reads the clock once and `get_mining_status` reads it again
a moment later; passing the same `now` to both is the determinisation of that
pair of reads).  Human-readable `message` strings and the constant
`cooldown_duration` field (always `COOLDOWN_SECONDS`) of the returned dicts
are omitted: they carry no state.  A database table is embedded as an
association list in row order; every SQL query in the source is a lookup or
update keyed on the user id, which `List.find?` / keyed `filter` / keyed
`map` model exactly (with `fetchone` = first row in table order).
-/

/- The arithmetic on `Rat` is `@[irreducible]` in Batteries; concrete states
here are tiny, so evaluation by `decide` is both feasible and the most
transparent way to check the model on concrete inputs. -/
attribute [local semireducible] Rat.add Rat.sub Rat.mul Rat.inv Rat.ofScientific

/-- `COOLDOWN_MINUTES = 100` from `faucet.py`. -/
def COOLDOWN_MINUTES : ℚ := 100

/-- `COOLDOWN_SECONDS = COOLDOWN_MINUTES * 60` from `faucet.py`. -/
def COOLDOWN_SECONDS : ℚ := COOLDOWN_MINUTES * 60

/-- A row of the `ccc_mining` table: `(telegram_user_id, last_mine_timestamp,
ccc_balance)`.  `telegram_user_id` is the `INTEGER PRIMARY KEY`. -/
abbrev MiningDB := List (ℕ × ℚ × ℚ)

/-- `SELECT last_mine_timestamp, ccc_balance FROM ccc_mining WHERE
telegram_user_id = ?` followed by `fetchone()`. -/
def lookupMining (db : MiningDB) (uid : ℕ) : Option (ℚ × ℚ) :=
  (db.find? (fun r => r.1 == uid)).map (fun r => r.2)

/-- The dict returned by `get_mining_status` (the `message`-free fields).
`has_error` records whether the `'error'` key is present (the
`except sqlite3.Error` branch). -/
structure MStatus where
  can_mine : Bool
  time_remaining : ℤ
  balance : ℚ
  is_mining : Bool
  has_error : Bool
deriving DecidableEq, Repr

/-- The dict returned by `process_mining` (the `message`-free fields). -/
structure MResult where
  success : Bool
  balance : ℚ
  time_remaining : ℤ
  can_mine : Bool
  has_error : Bool
deriving DecidableEq, Repr

/-- `get_mining_status` from `faucet.py` (the non-raising path; the
`sqlite3.Error` path is `get_mining_status_err` below).  For a user with no
row it INSERTs `(uid, 0.0, 0.0)` and commits before returning; otherwise the
table is untouched.  Python's `int()` truncation of
`COOLDOWN_SECONDS - time_since_last_mine` agrees with `Rat.floor` because the
operand is positive in that branch. -/
def get_mining_status (now : ℚ) (uid : ℕ) (db : MiningDB) : MStatus × MiningDB :=
  match lookupMining db uid with
  | none =>
      ({ can_mine := true, time_remaining := 0, balance := 0,
         is_mining := false, has_error := false },
       db ++ [(uid, 0, 0)])
  | some (lastMine, bal) =>
      if COOLDOWN_SECONDS ≤ now - lastMine then
        ({ can_mine := true, time_remaining := 0, balance := bal,
           is_mining := false, has_error := false }, db)
      else
        ({ can_mine := false,
           time_remaining := Rat.floor (COOLDOWN_SECONDS - (now - lastMine)),
           balance := bal, is_mining := true, has_error := false }, db)

/-- `INSERT OR REPLACE INTO ccc_mining VALUES (?, ?, ?)`: the conflicting
primary-key row (if any) is deleted and the new row inserted. -/
def insertOrReplaceMining (uid : ℕ) (lastMine bal : ℚ) (db : MiningDB) : MiningDB :=
  db.filter (fun r => r.1 != uid) ++ [(uid, lastMine, bal)]

/-- The second half of `process_mining` (`faucet.py` lines 218–248): given
the status just read, either return the ineligible result without touching
the table, or credit `reward = 1.0` and write the row
`(uid, current_time, new_balance)` in one `INSERT OR REPLACE` + `commit`. -/
def miningCommit (now : ℚ) (uid : ℕ) (st : MStatus) (db : MiningDB) :
    MResult × MiningDB :=
  if st.can_mine = false then
    ({ success := false, balance := st.balance,
       time_remaining := st.time_remaining, can_mine := false,
       has_error := false }, db)
  else
    ({ success := true, balance := st.balance + 1,
       time_remaining := Rat.floor COOLDOWN_SECONDS, can_mine := false,
       has_error := false },
     insertOrReplaceMining uid now (st.balance + 1) db)

/-- `process_mining` from `faucet.py` (non-raising path): check status, then
commit. -/
def process_mining (now : ℚ) (uid : ℕ) (db : MiningDB) : MResult × MiningDB :=
  let sd := get_mining_status now uid db
  miningCommit now uid sd.1 sd.2

/-- The balance currently stored for `uid` (`0.0` when the row is absent,
matching the row the source would initialise). -/
def storedBalance (db : MiningDB) (uid : ℕ) : ℚ :=
  match lookupMining db uid with
  | some (_, bal) => bal
  | none => 0

/-- The dict built by the `except sqlite3.Error` branch of
`get_mining_status`: `can_mine=False, time_remaining=0, balance=0.0,
is_mining=False` plus an `'error'` key. -/
def dbErrorStatus : MStatus :=
  { can_mine := false, time_remaining := 0, balance := 0,
    is_mining := false, has_error := true }

/-- The dict built by the `except sqlite3.Error` branch of `process_mining`:
`success=False, balance=0.0, time_remaining=0, can_mine=False` plus an
`'error'` key. -/
def dbErrorResult : MResult :=
  { success := false, balance := 0, time_remaining := 0,
    can_mine := false, has_error := true }

/-- `get_mining_status` with storage-failure injection: when the storage
layer raises `sqlite3.Error` during the `try` block, the `except` branch
returns `dbErrorStatus`; the connection is closed in `finally` without a
commit, so uncommitted changes roll back and the table is as before. -/
def get_mining_status_err (dbRaises : Bool) (now : ℚ) (uid : ℕ)
    (db : MiningDB) : MStatus × MiningDB :=
  if dbRaises then (dbErrorStatus, db) else get_mining_status now uid db

/-- The points at which `sqlite3.Error` can strike inside `process_mining`'s
own try block.  The inner `get_mining_status` call has its own
try/except and never propagates a storage error, so the outer except branch
is reached only from: `onConnect` — `sqlite3.connect()` / `cursor()` raises
before the status call runs, leaving the table untouched; `onWrite` — the
`INSERT OR REPLACE` or its `commit` raises *after* the inner status call
already ran and committed its own effects on its own connection, so the
reward write rolls back and the table is exactly the post-status table (for
a new user the status call's committed init row `(uid, 0.0, 0.0)`
persists). -/
inductive MiningFailure
  | onConnect
  | onWrite
deriving DecidableEq, Repr

/-- `process_mining` with storage-failure injection at its failure points.
`some .onWrite` with an ineligible user returns through the ordinary
ineligible path: the function returns before the write, so the pending write
failure never occurs. -/
def process_mining_err (fail : Option MiningFailure) (now : ℚ) (uid : ℕ)
    (db : MiningDB) : MResult × MiningDB :=
  match fail with
  | none => process_mining now uid db
  | some MiningFailure.onConnect => (dbErrorResult, db)
  | some MiningFailure.onWrite =>
      if (get_mining_status now uid db).1.can_mine = false then
        ({ success := false, balance := (get_mining_status now uid db).1.balance,
           time_remaining := (get_mining_status now uid db).1.time_remaining,
           can_mine := false, has_error := false },
         (get_mining_status now uid db).2)
      else (dbErrorResult, (get_mining_status now uid db).2)

/-- A claim in `faucet.py` is read-then-write with no lock and no transaction
spanning the two: `get_mining_status` runs on its own connection, the
`INSERT OR REPLACE` on another.  Two claims for the same user may therefore
interleave as read₁, read₂, write₁, write₂; this is that schedule. -/
def twoClaimsInterleaved (now : ℚ) (uid : ℕ) (db : MiningDB) :
    MResult × MResult × MiningDB :=
  let s1 := get_mining_status now uid db
  let s2 := get_mining_status now uid s1.2
  let w1 := miningCommit now uid s1.1 s2.2
  let w2 := miningCommit now uid s2.1 w1.2
  (w1.1, w2.1, w2.2)

/-! ## The original faucet flow of `faucet.py` (`send_hbar_to_account`) -/

/-- A row of `faucet_claims`: `(telegram_user_id, hedera_account_id,
last_claim_timestamp)`, keyed by `telegram_user_id`. -/
abbrev ClaimsDB := List (ℕ × String × ℚ)

/-- `SELECT hedera_account_id, last_claim_timestamp FROM faucet_claims WHERE
telegram_user_id = ?` followed by `fetchone()`. -/
def lookupClaims (db : ClaimsDB) (uid : ℕ) : Option (String × ℚ) :=
  (db.find? (fun r => r.1 == uid)).map (fun r => r.2)

/-- The input validation of `send_hbar_to_account`:
`user_input.startswith("0.0.") and user_input[4:].isdigit()` (Python's
`isdigit` is false on the empty string). -/
def isValidHedera (input : String) : Bool :=
  input.startsWith "0.0." && (input.drop 4 ≠ "") && (input.drop 4).all Char.isDigit

/-- `add_user_claim`: `INSERT OR IGNORE INTO faucet_claims VALUES (?, ?, ?)`
— inserts only when no row with this primary key exists. -/
def add_user_claim (uid : ℕ) (acct : String) (ts : ℚ) (db : ClaimsDB) : ClaimsDB :=
  if (db.find? (fun r => r.1 == uid)).isSome then db else db ++ [(uid, acct, ts)]

/-- `update_user_claim_timestamp`: `UPDATE faucet_claims SET
last_claim_timestamp = ? WHERE telegram_user_id = ?`. -/
def update_user_claim_timestamp (uid : ℕ) (ts : ℚ) (db : ClaimsDB) : ClaimsDB :=
  db.map (fun r => if r.1 = uid then (r.1, r.2.1, ts) else r)

/-- Outcome of the external transfer invocation
`subprocess.run(["node", "sendhbar.js", ...])` as observed by the caller:
exit code 0 (`ok`), nonzero exit code (`exitNonzero`), or an exception such
as `FileNotFoundError` / any other raised error — the outcome-unknown case
(`raised`).  Diagnostic stdout/stderr text is omitted. -/
inductive ExtOutcome
  | ok
  | exitNonzero
  | raised
deriving DecidableEq, Repr

/-- The reply category `send_hbar_to_account` ends in (message text
omitted). -/
inductive SendOutcome
  | invalidFormat
  | differentAccount
  | cooldownActive (remaining : ℚ)
  | transferred
  | transferredDbIssue
  | transferFailed
  | scriptError
deriving DecidableEq, Repr

/-- `send_hbar_to_account` from `faucet.py`, with the external transfer's
outcome passed in as `ext`.  The database is written only inside the
`returncode == 0` branch, i.e. only after the external action reported
success; every other path leaves `faucet_claims` untouched. -/
def send_hbar_to_account (now : ℚ) (uid : ℕ) (input : String)
    (ext : ExtOutcome) (db : ClaimsDB) : SendOutcome × ClaimsDB :=
  if ¬ isValidHedera input then (SendOutcome.invalidFormat, db)
  else
    match lookupClaims db uid with
    | some (stored, lastClaim) =>
        if stored ≠ input then (SendOutcome.differentAccount, db)
        else if now - lastClaim < COOLDOWN_SECONDS then
          (SendOutcome.cooldownActive (COOLDOWN_SECONDS - (now - lastClaim)), db)
        else
          match ext with
          | ExtOutcome.ok =>
              (SendOutcome.transferred, update_user_claim_timestamp uid now db)
          | ExtOutcome.exitNonzero => (SendOutcome.transferFailed, db)
          | ExtOutcome.raised => (SendOutcome.scriptError, db)
    | none =>
        match ext with
        | ExtOutcome.ok => (SendOutcome.transferred, add_user_claim uid input now db)
        | ExtOutcome.exitNonzero => (SendOutcome.transferFailed, db)
        | ExtOutcome.raised => (SendOutcome.scriptError, db)

/-! ## The session-model variant (`app.py`) -/

/-- `CCC_PER_SESSION = 1.0` from `app.py`. -/
def CCC_PER_SESSION : ℚ := 1

/-- `MINING_DURATION_SECONDS = 100 * 60` from `app.py`. -/
def MINING_DURATION_SECONDS : ℚ := 100 * 60

/-- A row of the `users` table of `app.py` (the `telegram_username` column is
never consulted by the core operations and is omitted):
`id INTEGER PRIMARY KEY`, `ccc_tokens REAL`, `hedera_account_id TEXT UNIQUE`
(nullable; SQLite `UNIQUE` admits many NULLs). -/
structure URow where
  id : ℕ
  ccc : ℚ
  hedera : Option String
deriving DecidableEq, Repr

/-- The whole store of `app.py`: the `users` table and the `mining_sessions`
table (rows `(user_id, start_time)`; no key, duplicates possible). -/
structure AppState where
  users : List URow
  sessions : List (ℕ × ℚ)
deriving DecidableEq, Repr

/-- `UPDATE users SET ccc_tokens = ccc_tokens + CCC_PER_SESSION WHERE id = ?`
applied to one row. -/
def credit_user (uid : ℕ) (r : URow) : URow :=
  if r.id = uid then { r with ccc := r.ccc + CCC_PER_SESSION } else r

/-- `complete_mining_session` from `app.py`: one transaction that deletes the
session row(s) `(uid, start)` and credits `CCC_PER_SESSION` to the user's
`ccc_tokens`, committed together. -/
def complete_mining_session (uid : ℕ) (start : ℚ) (s : AppState) : AppState :=
  { users := s.users.map (credit_user uid),
    sessions := s.sessions.filter
      (fun q => !(decide (q.1 = uid) && decide (q.2 = start))) }

/-- `get_active_mining_session` from `app.py`: fetch the first session row of
the user; if its elapsed time is still below `MINING_DURATION_SECONDS` report
it, otherwise lazily complete it (crediting the reward) and report none. -/
def get_active_mining_session (now : ℚ) (uid : ℕ) (s : AppState) :
    Option ℚ × AppState :=
  match s.sessions.find? (fun q => q.1 == uid) with
  | none => (none, s)
  | some q =>
      if now - q.2 < MINING_DURATION_SECONDS then (some q.2, s)
      else (none, complete_mining_session uid q.2 s)

/-- `start_mining_session` from `app.py`: `INSERT INTO mining_sessions
(user_id, start_time) VALUES (?, ?)`.  The `except sqlite3.IntegrityError`
branch is dead code: `mining_sessions` carries no uniqueness constraint, so
the insert always succeeds (even when a session already exists). -/
def start_mining_session (now : ℚ) (uid : ℕ) (s : AppState) : Bool × AppState :=
  (true, { s with sessions := s.sessions ++ [(uid, now)] })

/-- The `ccc_tokens` balance stored for `uid` (`0` when no row exists). -/
def cccTokensOf (s : AppState) (uid : ℕ) : ℚ :=
  match s.users.find? (fun u => u.id == uid) with
  | some r => r.ccc
  | none => 0

/-- The conflict the SQLite `UNIQUE` constraint on `hedera_account_id`
detects when setting `uid`'s account to `acct`: some other row already holds
that (non-NULL) value. -/
def hederaConflict (us : List URow) (uid : ℕ) (acct : String) : Prop :=
  ∃ r ∈ us, r.id ≠ uid ∧ r.hedera = some acct

instance (us : List URow) (uid : ℕ) (acct : String) :
    Decidable (hederaConflict us uid acct) :=
  List.decidableBEx _ us

/-- `UPDATE users SET hedera_account_id = ? WHERE id = ?` applied to one
row. -/
def setHedera (uid : ℕ) (acct : String) (r : URow) : URow :=
  if r.id = uid then { r with hedera := some acct } else r

/-- `update_hedera_account` from `app.py`: the `UPDATE ... WHERE id = ?`
succeeds unless the `UNIQUE` constraint fires (`sqlite3.IntegrityError`), in
which case the statement rolls back, nothing is mutated, and `False` is
returned.  The constraint can only fire when the `UPDATE` actually rewrites a
row, i.e. when `uid` has a `users` row; when no row matches, zero rows are
updated, nothing is checked, and the function returns `True` (the keyed `map`
is then the identity). -/
def update_hedera_account (uid : ℕ) (acct : String) (s : AppState) :
    Bool × AppState :=
  if (∃ r ∈ s.users, r.id = uid) ∧ hederaConflict s.users uid acct then (false, s)
  else (true, { s with users := s.users.map (setHedera uid acct) })

/-- The pairwise form of "no two rows hold the same non-NULL
`hedera_account_id`". -/
def hederaDistinct (a b : URow) : Prop :=
  a.hedera = none ∨ b.hedera = none ∨ a.hedera ≠ b.hedera

instance (a b : URow) : Decidable (hederaDistinct a b) := by
  unfold hederaDistinct; infer_instance

/-- The `UNIQUE` invariant of the `users` table: at most one user holds any
given linked account value. -/
def hederaInjective (us : List URow) : Prop :=
  us.Pairwise hederaDistinct

instance (us : List URow) : Decidable (hederaInjective us) :=
  List.instDecidablePairwise us

/-! ## The floating-point balance accumulation of the source -/

/-- `2 ^ 53`, the largest width at which every integer is exactly
representable as an IEEE-754 binary64 value. -/
def FLOAT_EXACT_MAX : ℕ := 9007199254740992

/-- The source stores `ccc_balance` as SQLite `REAL` (a binary64 float) and
each successful claim runs `new_balance = status['balance'] + reward` with
`reward = 1.0`.  On the integer-valued trajectory reached from `0.0` this
float addition is exact while the balance is below `2 ^ 53`; at `2 ^ 53` the
true sum `2 ^ 53 + 1` is not representable and rounds (round-half-to-even)
back to `2 ^ 53`.  This function is that addition. -/
def floatAddOne (b : ℕ) : ℕ :=
  if b < FLOAT_EXACT_MAX then b + 1 else b

/-- The stored balance after `n` successful claims under the source's
floating-point accumulation, starting from `0.0`. -/
def floatBalanceAfter (n : ℕ) : ℕ :=
  floatAddOne^[n] 0

/-! ## Helper lemmas -/

theorem lookupMining_insertOrReplace (uid : ℕ) (t b : ℚ) (db : MiningDB) :
    lookupMining (insertOrReplaceMining uid t b db) uid = some (t, b) := by
  unfold lookupMining insertOrReplaceMining
  induction db with
  | nil => simp
  | cons a l ih =>
      by_cases h : a.1 = uid
      · simp [List.filter_cons, h]
      · simp [List.filter_cons, h, List.find?_cons]

theorem find?_id_map (f : URow → URow) (hid : ∀ r, (f r).id = r.id)
    (uid : ℕ) (us : List URow) :
    (us.map f).find? (fun u => u.id == uid) =
      (us.find? (fun u => u.id == uid)).map f := by
  have hp : ((fun u : URow => u.id == uid) ∘ f) = (fun u : URow => u.id == uid) := by
    funext r
    simp [Function.comp, hid]
  rw [List.find?_map, hp]

theorem cccTokensOf_complete (uid : ℕ) (start : ℚ) (s : AppState) (r : URow)
    (hr : s.users.find? (fun u => u.id == uid) = some r) :
    cccTokensOf (complete_mining_session uid start s) uid =
      cccTokensOf s uid + CCC_PER_SESSION := by
  have hrid : r.id = uid := by
    have := List.find?_some hr
    simpa using this
  unfold cccTokensOf complete_mining_session
  rw [find?_id_map (credit_user uid) (fun r => by unfold credit_user; split <;> rfl) uid,
    hr]
  simp [credit_user, hrid]

theorem pairwise_setHedera (uid : ℕ) (acct : String) :
    ∀ us : List URow, (us.map URow.id).Nodup →
      us.Pairwise hederaDistinct →
      (∀ r ∈ us, r.id = uid ∨ r.hedera ≠ some acct) →
      (us.map (setHedera uid acct)).Pairwise hederaDistinct := by
  intro us
  induction us with
  | nil => intro _ _ _; simp
  | cons a t ih =>
      intro hnd hpw hside
      rw [List.map_cons, List.nodup_cons] at hnd
      rw [List.pairwise_cons] at hpw
      rw [List.map_cons, List.pairwise_cons]
      refine ⟨?_, ih hnd.2 hpw.2 (fun r hr => hside r (List.mem_cons_of_mem a hr))⟩
      intro b' hb'
      obtain ⟨b, hbmem, rfl⟩ := List.mem_map.mp hb'
      unfold hederaDistinct
      by_cases ha : a.id = uid
      · have hbid : b.id ≠ uid := by
          intro hbu
          exact hnd.1 (by rw [ha, ← hbu]; exact List.mem_map_of_mem URow.id hbmem)
        have hbh : b.hedera ≠ some acct :=
          (hside b (List.mem_cons_of_mem a hbmem)).resolve_left hbid
        refine Or.inr (Or.inr ?_)
        simp only [setHedera, ha, if_true, hbid, if_false, if_neg hbid]
        exact fun h => hbh h.symm
      · have hah : a.hedera ≠ some acct :=
          (hside a (List.mem_cons_self a t)).resolve_left ha
        by_cases hb : b.id = uid
        · refine Or.inr (Or.inr ?_)
          simpa [setHedera, ha, hb] using hah
        · have hd := hpw.1 b hbmem
          unfold hederaDistinct at hd
          simpa [setHedera, ha, hb] using hd

theorem map_setHedera_id (uid : ℕ) (acct : String) (us : List URow)
    (h : ∀ r ∈ us, r.id ≠ uid) : us.map (setHedera uid acct) = us := by
  induction us with
  | nil => rfl
  | cons a t ih =>
      rw [List.map_cons, ih (fun r hr => h r (List.mem_cons_of_mem a hr))]
      unfold setHedera
      rw [if_neg (h a (List.mem_cons_self a t))]

theorem storedBalance_status (now : ℚ) (uid : ℕ) (db : MiningDB) :
    storedBalance (get_mining_status now uid db).2 uid = storedBalance db uid := by
  rcases hl : lookupMining db uid with _ | ⟨lastMine, bal⟩
  · have hn : db.find? (fun r => r.1 == uid) = none := by
      unfold lookupMining at hl
      exact Option.map_eq_none'.mp hl
    have happ : lookupMining (db ++ [(uid, 0, 0)]) uid = some (0, 0) := by
      unfold lookupMining
      rw [List.find?_append, hn, Option.none_or]
      simp
    have h2 : get_mining_status now uid db =
        ({ can_mine := true, time_remaining := 0, balance := 0,
           is_mining := false, has_error := false }, db ++ [(uid, 0, 0)]) := by
      unfold get_mining_status
      rw [hl]
    rw [h2]
    unfold storedBalance
    rw [happ, hl]
  · by_cases hc : COOLDOWN_SECONDS ≤ now - lastMine <;>
      simp [get_mining_status, hl, hc, storedBalance]

theorem floatBalanceAfter_min (n : ℕ) :
    floatBalanceAfter n = min n FLOAT_EXACT_MAX := by
  induction n with
  | zero => simp [floatBalanceAfter, FLOAT_EXACT_MAX]
  | succ k ih =>
      have h : floatBalanceAfter (k + 1) = floatAddOne (floatBalanceAfter k) := by
        unfold floatBalanceAfter
        rw [Function.iterate_succ_apply']
      rw [h, ih]
      unfold floatAddOne FLOAT_EXACT_MAX
      split <;> omega

/-! ## Claims -/

/-- C1: for every user eligible at time `now`, a claim is the single function
application `process_mining`, whose one commit writes timestamp and balance
together: after a successful claim the stored row holds
`last_mine_timestamp = now` and `balance = old balance + 1`, with no
intermediate state (the `INSERT OR REPLACE` writes both fields in one
statement); likewise the session model's `complete_mining_session` closes the
session and credits the reward in one transaction. -/
theorem c1_atomic_claim :
    (∀ (now : ℚ) (uid : ℕ) (db : MiningDB),
        (get_mining_status now uid db).1.can_mine = true →
        (process_mining now uid db).1.success = true ∧
        lookupMining (process_mining now uid db).2 uid =
          some (now, storedBalance db uid + 1)) ∧
    (∀ (now : ℚ) (uid : ℕ) (q : ℕ × ℚ) (s : AppState) (r : URow),
        s.sessions.find? (fun p => p.1 == uid) = some q →
        MINING_DURATION_SECONDS ≤ now - q.2 →
        s.users.find? (fun u => u.id == uid) = some r →
        cccTokensOf (get_active_mining_session now uid s).2 uid =
          cccTokensOf s uid + CCC_PER_SESSION ∧
        (uid, q.2) ∉ (get_active_mining_session now uid s).2.sessions) := by
  constructor
  · intro now uid db h
    rcases hl : lookupMining db uid with _ | ⟨lastMine, bal⟩
    · constructor <;>
        simp [process_mining, get_mining_status, hl, miningCommit,
          storedBalance, lookupMining_insertOrReplace]
    · by_cases hc : COOLDOWN_SECONDS ≤ now - lastMine
      · constructor <;>
          simp [process_mining, get_mining_status, hl, hc, miningCommit,
            storedBalance, lookupMining_insertOrReplace]
      · simp [get_mining_status, hl, hc] at h
  · intro now uid q s r hq hd hr
    have hone : (get_active_mining_session now uid s).2 =
        complete_mining_session uid q.2 s := by
      simp [get_active_mining_session, hq, not_lt.mpr hd]
    refine ⟨?_, ?_⟩
    · rw [hone]
      exact cccTokensOf_complete uid q.2 s r hr
    · rw [hone]
      unfold complete_mining_session
      simp [List.mem_filter]

theorem c1_witness :
    ((process_mining 7000 1 [(1, 0, 5)]).1.success = true ∧
      lookupMining (process_mining 7000 1 [(1, 0, 5)]).2 1 = some (7000, 5 + 1)) ∧
    (cccTokensOf (get_active_mining_session 7000 1
          ⟨[⟨1, 3, none⟩], [(1, 0)]⟩).2 1 =
        cccTokensOf ⟨[⟨1, 3, none⟩], [(1, 0)]⟩ 1 + CCC_PER_SESSION ∧
      (1, (0 : ℚ)) ∉ (get_active_mining_session 7000 1
          ⟨[⟨1, 3, none⟩], [(1, 0)]⟩).2.sessions) :=
  ⟨c1_atomic_claim.1 7000 1 [(1, 0, 5)] (by decide),
    c1_atomic_claim.2 7000 1 (1, 0) ⟨[⟨1, 3, none⟩], [(1, 0)]⟩ ⟨1, 3, none⟩
      (by decide) (by decide) (by decide)⟩

/-- C2 as stated is false: the code truncates the remaining wait to a whole
number of seconds (`int(COOLDOWN_SECONDS - time_since_last_mine)`), so for a
fractional elapsed time the returned `time_remaining` differs from
`D - elapsed`.  Concretely: `last = 0`, `now = 1/2` (so `elapsed = 1/2 < D`),
the code returns `5999` but `D - elapsed = 5999.5`. -/
theorem c2_remaining_is_truncated :
    (1 / 2 : ℚ) - 0 < COOLDOWN_SECONDS ∧
    lookupMining [(1, 0, 5)] 1 = some (0, 5) ∧
    ((process_mining (1 / 2 : ℚ) 1 [(1, 0, 5)]).1.time_remaining : ℚ) ≠
      COOLDOWN_SECONDS - ((1 / 2 : ℚ) - 0) := by
  refine ⟨by decide, by decide, by decide⟩

/-- C2 (amended): for every user whose elapsed time since the last reward is
strictly below `D`, a claim returns `success = false` with
`time_remaining = ⌊D - elapsed⌋` (truncated to whole seconds) and the current
balance, and mutates no stored state. -/
theorem c2_ineligible_claim :
    ∀ (now lastMine bal : ℚ) (uid : ℕ) (db : MiningDB),
      lookupMining db uid = some (lastMine, bal) →
      now - lastMine < COOLDOWN_SECONDS →
      process_mining now uid db =
        ({ success := false, balance := bal,
           time_remaining := Rat.floor (COOLDOWN_SECONDS - (now - lastMine)),
           can_mine := false, has_error := false }, db) := by
  intro now lastMine bal uid db h hlt
  simp [process_mining, get_mining_status, h, not_le.mpr hlt, miningCommit]

theorem c2_witness :
    process_mining 100 1 [(1, 0, 5)] =
      ({ success := false, balance := 5,
         time_remaining := Rat.floor (COOLDOWN_SECONDS - (100 - 0)),
         can_mine := false, has_error := false }, [(1, 0, 5)]) :=
  c2_ineligible_claim 100 0 5 1 [(1, 0, 5)] (by decide) (by decide)

/-- C3: for a user with a recorded last-reward timestamp, eligibility holds
exactly when `elapsed ≥ D` (boundary inclusive) — `get_mining_status` uses
`>=`, and `get_active_mining_session` keeps a session open only while
`elapsed < D`, so a check arriving exactly at `elapsed = D` is eligible
(resp. completes the session). -/
theorem c3_boundary_inclusive :
    (∀ (now lastMine bal : ℚ) (uid : ℕ) (db : MiningDB),
        lookupMining db uid = some (lastMine, bal) →
        ((get_mining_status now uid db).1.can_mine = true ↔
          COOLDOWN_SECONDS ≤ now - lastMine)) ∧
    (∀ (now : ℚ) (uid : ℕ) (q : ℕ × ℚ) (s : AppState),
        s.sessions.find? (fun p => p.1 == uid) = some q →
        ((get_active_mining_session now uid s).1 = none ↔
          MINING_DURATION_SECONDS ≤ now - q.2)) := by
  constructor
  · intro now lastMine bal uid db h
    by_cases hc : COOLDOWN_SECONDS ≤ now - lastMine <;>
      simp [get_mining_status, h, hc]
  · intro now uid q s h
    by_cases hc : now - q.2 < MINING_DURATION_SECONDS
    · simp [get_active_mining_session, h, hc]
    · simp [get_active_mining_session, h, hc]
      exact not_lt.mp hc

theorem c3_witness :
    (get_mining_status 6000 1 [(1, 0, 5)]).1.can_mine = true ∧
    (get_active_mining_session 6000 1 ⟨[⟨1, 0, none⟩], [(1, 0)]⟩).1 = none :=
  ⟨(c3_boundary_inclusive.1 6000 0 5 1 [(1, 0, 5)] (by decide)).mpr (by decide),
    (c3_boundary_inclusive.2 6000 1 (1, 0) ⟨[⟨1, 0, none⟩], [(1, 0)]⟩
      (by decide)).mpr (by decide)⟩

/-- C4: a user with no stored record gets a status of eligible with zero
remaining wait and zero balance (and the record is initialised), and a claim
by a user with no stored record succeeds, crediting balance 1. -/
theorem c4_new_user :
    ∀ (now : ℚ) (uid : ℕ) (db : MiningDB),
      lookupMining db uid = none →
      get_mining_status now uid db =
        ({ can_mine := true, time_remaining := 0, balance := 0,
           is_mining := false, has_error := false }, db ++ [(uid, 0, 0)]) ∧
      (process_mining now uid db).1.success = true ∧
      (process_mining now uid db).1.balance = 1 := by
  intro now uid db h
  refine ⟨?_, ?_, ?_⟩ <;>
    simp [process_mining, get_mining_status, h, miningCommit]

theorem c4_witness :
    get_mining_status 0 1 [] =
      ({ can_mine := true, time_remaining := 0, balance := 0,
         is_mining := false, has_error := false }, [(1, 0, 0)]) ∧
    (process_mining 0 1 []).1.success = true ∧
    (process_mining 0 1 []).1.balance = 1 :=
  c4_new_user 0 1 [] (by decide)

/-- C5: `send_hbar_to_account` writes `faucet_claims` only inside the
`returncode == 0` branch; whenever the external transfer exits nonzero or its
outcome is unknown (an exception was raised), the stored table after the
attempt is exactly the table before it and no claim is recorded. -/
theorem c5_external_failure_preserves_state :
    ∀ (now : ℚ) (uid : ℕ) (input : String) (ext : ExtOutcome) (db : ClaimsDB),
      ext ≠ ExtOutcome.ok →
      (send_hbar_to_account now uid input ext db).2 = db := by
  intro now uid input ext db hext
  cases ext with
  | ok => exact absurd rfl hext
  | exitNonzero =>
      unfold send_hbar_to_account
      split
      · rfl
      · split
        · split
          · rfl
          · split
            · rfl
            · rfl
        · rfl
  | raised =>
      unfold send_hbar_to_account
      split
      · rfl
      · split
        · split
          · rfl
          · split
            · rfl
            · rfl
        · rfl

theorem c5_witness :
    ExtOutcome.exitNonzero ≠ ExtOutcome.ok ∧
    (send_hbar_to_account 7000 1 "0.0.123" ExtOutcome.exitNonzero
        [(1, "0.0.123", 0)]).2 = [(1, "0.0.123", 0)] :=
  ⟨by decide, c5_external_failure_preserves_state 7000 1 "0.0.123"
      ExtOutcome.exitNonzero [(1, "0.0.123", 0)] (by decide)⟩

/-- C6: the account registry keeps the one-to-one linkage invariant under
every link operation (the `UNIQUE` constraint, which fires exactly when a row
is actually rewritten to a value held by another user): an attempt to link an
account held by a different user to a registered user fails and leaves all
state unchanged (when the target user has no row the `UPDATE` matches zero
rows and mutates nothing, so the invariant is preserved there too), and the
faucet variant likewise rejects a claim for a different account than the one
a user already holds, without mutating state. -/
theorem c6_registry_one_to_one :
    ∀ (uid : ℕ) (acct : String) (s : AppState),
      (s.users.map URow.id).Nodup →
      hederaInjective s.users →
      hederaInjective (update_hedera_account uid acct s).2.users ∧
      ((∃ r ∈ s.users, r.id = uid) → hederaConflict s.users uid acct →
        update_hedera_account uid acct s = (false, s)) ∧
      (∀ (now lastClaim : ℚ) (u : ℕ) (stored input : String)
          (ext : ExtOutcome) (db : ClaimsDB),
        lookupClaims db u = some (stored, lastClaim) →
        stored ≠ input →
        isValidHedera input = true →
        send_hbar_to_account now u input ext db =
          (SendOutcome.differentAccount, db)) := by
  intro uid acct s hnd hinj
  refine ⟨?_, ?_, ?_⟩
  · unfold update_hedera_account
    by_cases hcond : (∃ r ∈ s.users, r.id = uid) ∧ hederaConflict s.users uid acct
    · rw [if_pos hcond]
      exact hinj
    · rw [if_neg hcond]
      by_cases hconf : hederaConflict s.users uid acct
      · have hex : ∀ r ∈ s.users, r.id ≠ uid := by
          intro r hr hru
          exact hcond ⟨⟨r, hr, hru⟩, hconf⟩
        rw [map_setHedera_id uid acct s.users hex]
        exact hinj
      · exact pairwise_setHedera uid acct s.users hnd hinj
          (fun r hr => by
            by_cases hru : r.id = uid
            · exact Or.inl hru
            · refine Or.inr ?_
              intro hacc
              exact hconf ⟨r, hr, hru, hacc⟩)
  · intro hex hconf
    unfold update_hedera_account
    rw [if_pos ⟨hex, hconf⟩]
  · intro now lastClaim u stored input ext db hl hne hv
    simp [send_hbar_to_account, hl, hv, hne]

theorem c6_witness :
    update_hedera_account 2 "0.0.5"
        ⟨[⟨1, 0, some "0.0.5"⟩, ⟨2, 0, none⟩], []⟩ =
      (false, ⟨[⟨1, 0, some "0.0.5"⟩, ⟨2, 0, none⟩], []⟩) ∧
    hederaInjective (update_hedera_account 2 "0.0.5"
        ⟨[⟨1, 0, some "0.0.5"⟩, ⟨2, 0, none⟩], []⟩).2.users :=
  ⟨(c6_registry_one_to_one 2 "0.0.5" ⟨[⟨1, 0, some "0.0.5"⟩, ⟨2, 0, none⟩], []⟩
      (by decide) (by decide)).2.1 ⟨⟨2, 0, none⟩, by decide, rfl⟩
      ⟨⟨1, 0, some "0.0.5"⟩, by decide, by decide, rfl⟩,
    (c6_registry_one_to_one 2 "0.0.5" ⟨[⟨1, 0, some "0.0.5"⟩, ⟨2, 0, none⟩], []⟩
      (by decide) (by decide)).1⟩

/-- C7 fails on the code: claims are not serialized (no lock, no transaction
spans the read and the write), so two claims for the same user with no prior
state, interleaved as read₁ read₂ write₁ write₂ inside one eligibility
window, BOTH report `success = true` (the balance update is lost-update
merged to a single reward).  In the session variant the same race inserts two
sessions (`mining_sessions` has no uniqueness constraint) and later lazy
completions credit the reward twice. -/
theorem c7_race_double_success :
    (twoClaimsInterleaved 7000 1 []).1.success = true ∧
    (twoClaimsInterleaved 7000 1 []).2.1.success = true ∧
    (twoClaimsInterleaved 7000 1 []).2.2 = [(1, 7000, 1)] ∧
    (get_active_mining_session 0 1 ⟨[⟨1, 0, none⟩], []⟩).1 = none ∧
    cccTokensOf (get_active_mining_session 7002 1
        (get_active_mining_session 7000 1
          (start_mining_session 1 1
            (start_mining_session 0 1 ⟨[⟨1, 0, none⟩], []⟩).2).2).2).2 1 = 2 := by
  decide

/-- C8 as stated is false: in the last-timestamp variant a status check is
not a pure read — for a user with no record it INSERTs an initial row
`(uid, 0.0, 0.0)` and commits it. -/
theorem c8_status_check_mutates :
    (get_mining_status 100 7 []).2 ≠ ([] : MiningDB) := by
  decide

/-- C8 (amended): a status check mutates nothing for a user with an existing
record; for a user with no record it initialises that user's row (timestamp
0, balance 0); and under the session model a status check that finds an open
session whose elapsed time has reached `D` performs exactly the completion
side effect (`complete_mining_session`): it closes the session and credits
the reward. -/
theorem c8_status_side_effects :
    (∀ (now : ℚ) (uid : ℕ) (p : ℚ × ℚ) (db : MiningDB),
        lookupMining db uid = some p →
        (get_mining_status now uid db).2 = db) ∧
    (∀ (now : ℚ) (uid : ℕ) (db : MiningDB),
        lookupMining db uid = none →
        (get_mining_status now uid db).2 = db ++ [(uid, 0, 0)]) ∧
    (∀ (now : ℚ) (uid : ℕ) (q : ℕ × ℚ) (s : AppState),
        s.sessions.find? (fun p => p.1 == uid) = some q →
        MINING_DURATION_SECONDS ≤ now - q.2 →
        get_active_mining_session now uid s =
          (none, complete_mining_session uid q.2 s)) := by
  refine ⟨?_, ?_, ?_⟩
  · intro now uid p db h
    rcases p with ⟨lastMine, bal⟩
    by_cases hc : COOLDOWN_SECONDS ≤ now - lastMine <;>
      simp [get_mining_status, h, hc]
  · intro now uid db h
    simp [get_mining_status, h]
  · intro now uid q s hq hd
    simp [get_active_mining_session, hq, not_lt.mpr hd]

theorem c8_witness :
    (get_mining_status 7000 1 [(1, 0, 5)]).2 = [(1, 0, 5)] ∧
    get_active_mining_session 7000 1 ⟨[⟨1, 0, none⟩], [(1, 0)]⟩ =
      (none, complete_mining_session 1 0 ⟨[⟨1, 0, none⟩], [(1, 0)]⟩) :=
  ⟨c8_status_side_effects.1 7000 1 (0, 5) [(1, 0, 5)] (by decide),
    c8_status_side_effects.2.2 7000 1 (1, 0) ⟨[⟨1, 0, none⟩], [(1, 0)]⟩
      (by decide) (by decide)⟩

/-- C9 fails on the code: the balance is accumulated in binary64 floating
point (`ccc_balance REAL`, `new_balance = status['balance'] + 1.0`), not in
exact fixed-point arithmetic, and the accumulation drifts: after
`2 ^ 53 + 1` successful claims the stored balance is `2 ^ 53`, not
`(2 ^ 53 + 1) * 1`. -/
theorem c9_float_accumulation_drifts :
    floatBalanceAfter (FLOAT_EXACT_MAX + 1) = FLOAT_EXACT_MAX ∧
    FLOAT_EXACT_MAX + 1 ≠ FLOAT_EXACT_MAX :=
  ⟨by rw [floatBalanceAfter_min]; exact min_eq_right (Nat.le_succ _),
    Nat.succ_ne_self _⟩

/-- C10: a storage error raised by the underlying database operations is not
propagated: `process_mining`'s except branch returns the fixed error dict
(`success = false`, reported balance 0 regardless of the stored balance, an
error message attached) — reached either before any effect (connect failure:
store untouched) or at the reward write (which rolls back, so the user's
stored balance is unchanged and no reward is credited; only the inner status
call's already-committed init row may persist) — and `get_mining_status`'s
except branch returns its fixed error dict (`can_mine = false`, balance 0)
with the store untouched. -/
theorem c10_storage_error :
    (∀ (now : ℚ) (uid : ℕ) (db : MiningDB),
        process_mining_err (some MiningFailure.onConnect) now uid db =
          (dbErrorResult, db)) ∧
    (∀ (now : ℚ) (uid : ℕ) (db : MiningDB),
        (get_mining_status now uid db).1.can_mine = true →
        process_mining_err (some MiningFailure.onWrite) now uid db =
          (dbErrorResult, (get_mining_status now uid db).2) ∧
        storedBalance
            (process_mining_err (some MiningFailure.onWrite) now uid db).2 uid =
          storedBalance db uid) ∧
    (∀ (now : ℚ) (uid : ℕ) (db : MiningDB),
        get_mining_status_err true now uid db = (dbErrorStatus, db)) ∧
    dbErrorResult.success = false ∧ dbErrorResult.balance = 0 ∧
    dbErrorResult.has_error = true ∧ dbErrorStatus.can_mine = false ∧
    dbErrorStatus.balance = 0 ∧ dbErrorStatus.has_error = true := by
  refine ⟨fun _ _ _ => rfl, ?_, fun _ _ _ => rfl, rfl, rfl, rfl, rfl, rfl, rfl⟩
  intro now uid db h
  have he : process_mining_err (some MiningFailure.onWrite) now uid db =
      (dbErrorResult, (get_mining_status now uid db).2) := by
    simp [process_mining_err, h]
  refine ⟨he, ?_⟩
  rw [he]
  exact storedBalance_status now uid db

theorem c10_witness :
    (get_mining_status 7000 1 []).1.can_mine = true ∧
    process_mining_err (some MiningFailure.onWrite) 7000 1 [] =
      (dbErrorResult, (get_mining_status 7000 1 []).2) ∧
    storedBalance (process_mining_err (some MiningFailure.onWrite)
        7000 1 []).2 1 = storedBalance [] 1 :=
  ⟨by decide, (c10_storage_error.2.1 7000 1 [] (by decide)).1,
    (c10_storage_error.2.1 7000 1 [] (by decide)).2⟩
